import Mathlib

/-!
# Verification of `geofile` (shapefile → GeoJSON converter with pluggable metrics)

Shallow embedding of `src/geofile/geofile.py`.

The pipeline `convert_shapefile` is modelled as a pure function over an
environment oracle `Env` that stands for the external collaborators
(`os.path.getsize`, `gpd.read_file`, `GeoDataFrame.to_file`, the clock).
The sequence of collector method invocations is recorded as a trace of
`Event`s (the pipeline never consumes a collector return value, so any
concrete collector is a fold of its operations over this trace), file-system
interactions are recorded as a trace of `FsOp`s, and exception propagation
is modelled with `Except String`.

Metrics collectors (`NullCollector`, `JsonLogCollector`, `StatsDCollector`)
are modelled as state machines: each operation maps a collector state to a
new state plus a list of emitted outputs (log lines / StatsD commands).
-/

namespace Geofile

/-- External table (`geopandas.GeoDataFrame`): the pipeline only observes
`len(gdf)` and `gdf.crs`. -/
structure Table where
  numRows : ℕ
  crs : String
deriving DecidableEq, Repr

/-- The metadata dict assembled on the success path of `convert_shapefile`. -/
structure Metadata where
  input_file : String
  output_file : String
  feature_count : ℕ
  input_size_mb : ℚ
  output_size_mb : ℚ
  crs : String
deriving DecidableEq, Repr

/-- One collector-method invocation made by the pipeline
(a `MetricEvent` in the spec's data model). -/
inductive Event where
  | startEv : Event
  | readTimeEv : ℚ → Event
  | featureCountEv : ℕ → Event
  | writeTimeEv : ℚ → Event
  | fileSizesEv : ℚ → ℚ → Event
  | successEv : ℚ → Metadata → Event
  | failureEv : String → Event
deriving DecidableEq, Repr

/-- One file-system interaction made by the pipeline. -/
inductive FsOp where
  | statF : String → FsOp
  | readF : String → FsOp
  | writeF : String → FsOp
deriving DecidableEq, Repr

/-- Environment oracle for the external collaborators: file sizes
(`os.path.getsize`, in bytes), table reading (`gpd.read_file`), table
writing (`gdf.to_file(..., driver='GeoJSON')`), and the durations measured
with `time.time()`.  `Except.error e` models a raised exception whose
`str(e)` is `e`. -/
structure Env where
  getSize : String → Except String ℚ
  readFile : String → Except String Table
  writeFile : Table → String → Except String Unit
  readDur : ℚ
  writeDur : ℚ
  totalDur : ℚ

/-! ## Output-path resolution (`pathlib.Path.with_suffix('.geojson')`) -/

/-- Split a character list at `'/'` separators (the components of a path). -/
def splitSlash (p : List Char) : List (List Char) :=
  p.foldr (fun c acc => if c = '/' then [] :: acc else (c :: acc.headD []) :: acc.tail) [[]]

/-- `pathlib.Path(p).name`: the final path component. -/
def nameOf (p : List Char) : List Char :=
  (splitSlash p).getLastD []

/-- `pathlib.Path(p).suffix`: the extension of the final component, dot
included; empty unless the last `'.'` of the name sits at an index `i` with
`0 < i < len - 1`. -/
def extOf (p : List Char) : List Char :=
  let name := nameOf p
  match (name.reverse.findIdx? (· = '.')).map (fun k => name.length - 1 - k) with
  | some i => if 0 < i ∧ i < name.length - 1 then name.drop i else []
  | none => []

/-- `pathlib.Path(p).with_suffix(suf)`: drop the old extension (if any) from
the end of the path and append `suf`. -/
def withSuffixL (p suf : List Char) : List Char :=
  let old := extOf p
  if old = [] then p ++ suf else p.take (p.length - old.length) ++ suf

/-- String-level `with_suffix`. -/
def with_suffix (p suf : String) : String :=
  ⟨withSuffixL p.data suf.data⟩

/-- Output path used by `convert_shapefile`: the given path verbatim, else
the input path with its suffix swapped to `.geojson` (line 211-213). -/
def resolveOutput (input_path : String) (output_path : Option String) : String :=
  match output_path with
  | some p => p
  | none => with_suffix input_path ".geojson"

/-! ## The conversion pipeline -/

/-- Observable outcome of one `convert_shapefile` call: the trace of
collector invocations, the trace of file-system operations, and the
result (`.ok` = normal return, `.error` = propagated exception). -/
structure ConvResult where
  events : List Event
  fs : List FsOp
  result : Except String Bool
deriving Repr

/-- `convert_shapefile(input_path, output_path, metrics)` (lines 194-264),
with the collector calls recorded as `Event`s.  Mirrors the source order:
`record_conversion_start`; resolve output path; stat input; read (then
`record_read_time`, `record_feature_count`); write (then
`record_write_time`); stat output (then `record_file_sizes`); assemble
metadata; `record_conversion_success`; return `True`.  Any step failure
inside the `try` jumps to the `except` block: `record_conversion_failure(str(e))`
then `raise`. -/
def convert_shapefile (env : Env) (input_path : String) (output_path : Option String) :
    ConvResult :=
  let out := resolveOutput input_path output_path
  match env.getSize input_path with
  | .error e =>
      ⟨[.startEv, .failureEv e], [.statF input_path], .error e⟩
  | .ok inBytes =>
    let input_size_mb := inBytes / 1024 / 1024
    match env.readFile input_path with
    | .error e =>
        ⟨[.startEv, .failureEv e], [.statF input_path, .readF input_path], .error e⟩
    | .ok gdf =>
      match env.writeFile gdf out with
      | .error e =>
          ⟨[.startEv, .readTimeEv env.readDur, .featureCountEv gdf.numRows, .failureEv e],
           [.statF input_path, .readF input_path, .writeF out], .error e⟩
      | .ok _ =>
        match env.getSize out with
        | .error e =>
            ⟨[.startEv, .readTimeEv env.readDur, .featureCountEv gdf.numRows,
              .writeTimeEv env.writeDur, .failureEv e],
             [.statF input_path, .readF input_path, .writeF out, .statF out], .error e⟩
        | .ok outBytes =>
          let output_size_mb := outBytes / 1024 / 1024
          let meta : Metadata :=
            ⟨input_path, out, gdf.numRows, input_size_mb, output_size_mb, gdf.crs⟩
          ⟨[.startEv, .readTimeEv env.readDur, .featureCountEv gdf.numRows,
            .writeTimeEv env.writeDur, .fileSizesEv input_size_mb output_size_mb,
            .successEv env.totalDur meta],
           [.statF input_path, .readF input_path, .writeF out, .statF out], .ok true⟩

/-- Number of `success` invocations in a trace. -/
def countSuccess (evs : List Event) : ℕ :=
  evs.countP (fun ev => match ev with | .successEv _ _ => true | _ => false)

/-- Number of `failure` invocations in a trace. -/
def countFailure (evs : List Event) : ℕ :=
  evs.countP (fun ev => match ev with | .failureEv _ => true | _ => false)

/-! ## Collectors as state machines -/

/-- A metrics collector over state `σ`, emitting outputs of type `ω`:
the seven operations of the abstract `MetricsCollector` interface. -/
structure CollectorOps (σ ω : Type) where
  record_conversion_start : σ → σ × List ω
  record_conversion_success : ℚ → Metadata → σ → σ × List ω
  record_conversion_failure : String → σ → σ × List ω
  record_read_time : ℚ → σ → σ × List ω
  record_write_time : ℚ → σ → σ × List ω
  record_feature_count : ℕ → σ → σ × List ω
  record_file_sizes : ℚ → ℚ → σ → σ × List ω

/-- Dispatch one pipeline invocation to the collector. -/
def runOp {σ ω : Type} (c : CollectorOps σ ω) (s : σ) : Event → σ × List ω
  | .startEv => c.record_conversion_start s
  | .readTimeEv d => c.record_read_time d s
  | .featureCountEv n => c.record_feature_count n s
  | .writeTimeEv d => c.record_write_time d s
  | .fileSizesEv i o => c.record_file_sizes i o s
  | .successEv d m => c.record_conversion_success d m s
  | .failureEv e => c.record_conversion_failure e s

/-- Run a collector over a trace of invocations, accumulating outputs. -/
def runEvents {σ ω : Type} (c : CollectorOps σ ω) (s : σ) : List Event → σ × List ω
  | [] => (s, [])
  | ev :: rest =>
    let p := runOp c s ev
    let q := runEvents c p.1 rest
    (q.1, p.2 ++ q.2)

/-! ## JSON values and the `json.dumps` serialization used by `JsonLogCollector` -/

/-- A JSON scalar stored in the in-flight record: a string or a number
(Python ints and floats are both modelled as rationals). -/
inductive JsonVal where
  | s : String → JsonVal
  | n : ℚ → JsonVal
deriving DecidableEq, Repr

/-- The in-flight record `self.current_record`: an insertion-ordered dict. -/
abbrev JRecord := List (String × JsonVal)

/-- Python dict item assignment `d[k] = v`: overwrite in place if the key
exists, else append at the end. -/
def dictInsert (d : JRecord) (k : String) (v : JsonVal) : JRecord :=
  if d.any (fun p => p.1 == k) then d.map (fun p => if p.1 = k then (k, v) else p)
  else d ++ [(k, v)]

/-- Python `d.update(kvs)`: item assignment for each pair in order. -/
def dictUpdate (d : JRecord) (kvs : List (String × JsonVal)) : JRecord :=
  kvs.foldl (fun acc p => dictInsert acc p.1 p.2) d

/-- Hexadecimal digit character. -/
def digitChar (d : ℕ) : Char :=
  match d with
  | 0 => '0' | 1 => '1' | 2 => '2' | 3 => '3' | 4 => '4'
  | 5 => '5' | 6 => '6' | 7 => '7' | 8 => '8' | 9 => '9'
  | 10 => 'a' | 11 => 'b' | 12 => 'c' | 13 => 'd' | 14 => 'e' | _ => 'f'

/-- Decimal digits of a natural number. -/
def natChars (n : ℕ) : List Char :=
  if _h : n < 10 then [digitChar n]
  else natChars (n / 10) ++ [digitChar (n % 10)]
decreasing_by exact Nat.div_lt_self (by omega) (by omega)

/-- Rendering of an integer. -/
def intChars (z : ℤ) : List Char :=
  (if z < 0 then ['-'] else []) ++ natChars z.natAbs

/-- Rendering of a JSON number (a rational, exactly). -/
def qChars (q : ℚ) : List Char :=
  intChars q.num ++ (if q.den = 1 then [] else '/' :: natChars q.den)

/-- `json.dumps` escaping of one character inside a string literal:
quotes, backslashes and control characters are escaped. -/
def escChar (c : Char) : List Char :=
  if c = '\"' then ['\\', '\"']
  else if c = '\\' then ['\\', '\\']
  else if c = '\n' then ['\\', 'n']
  else if c = '\r' then ['\\', 'r']
  else if c = '\t' then ['\\', 't']
  else if c = Char.ofNat 8 then ['\\', 'b']
  else if c = Char.ofNat 12 then ['\\', 'f']
  else if c.toNat < 32 then ['\\', 'u', '0', '0', digitChar (c.toNat / 16), digitChar (c.toNat % 16)]
  else [c]

/-- A JSON string literal, quotes included. -/
def jsonStrChars (s : String) : List Char :=
  '\"' :: (s.data.flatMap escChar) ++ ['\"']

/-- Serialization of one JSON scalar. -/
def jsonValChars : JsonVal → List Char
  | .s v => jsonStrChars v
  | .n v => qChars v

/-- Serialization of one `key: value` pair. -/
def pairChars (p : String × JsonVal) : List Char :=
  jsonStrChars p.1 ++ ':' :: ' ' :: jsonValChars p.2

/-- Comma-separated join of the serialized pairs. -/
def joinPairs : List (List Char) → List Char
  | [] => []
  | [x] => x
  | x :: y :: rest => x ++ ',' :: ' ' :: joinPairs (y :: rest)

/-- `json.dumps(record)`: one JSON object. -/
def jsonDumps (r : JRecord) : String :=
  ⟨'\x7b' :: joinPairs (r.map pairChars) ++ ['\x7d']⟩

/-! ## The three collector implementations the claims are about -/

/-- Destination of a `JsonLogCollector` emission: the configured file
(appended to) or standard output (`print`). -/
inductive LogDest where
  | file : String → LogDest
  | stdout : LogDest
deriving DecidableEq, Repr

/-- One `_write_record` emission: the destination together with the record
that was serialized (the written line is `jsonDumps` of the record plus a
newline terminator). -/
structure LogOut where
  dest : LogDest
  record : JRecord
deriving DecidableEq, Repr

/-- Destination selected by `_write_record` (lines 108-114). -/
def destOf : Option String → LogDest
  | some f => .file f
  | none => .stdout

/-- The fresh record installed by `record_conversion_start` (lines 116-120):
only the captured timestamp and the start event tag. -/
def freshRecord (ts : String) : JRecord :=
  [("timestamp", .s ts), ("event", .s "conversion_start")]

/-- The key-value pairs of the success metadata dict, in insertion order
(`**metadata` at line 126). -/
def metaRecord (m : Metadata) : List (String × JsonVal) :=
  [("input_file", .s m.input_file), ("output_file", .s m.output_file),
   ("feature_count", .n (m.feature_count : ℚ)), ("input_size_mb", .n m.input_size_mb),
   ("output_size_mb", .n m.output_size_mb), ("crs", .s m.crs)]

/-- `JsonLogCollector` (lines 103-148), with constructor argument
`output_file` and the timestamp string `ts` that `time.strftime` returns at
`record_conversion_start`.  State is the in-flight record (initially the
empty dict from `__init__`); `success`/`failure` merge their fields and
emit one record, the intermediate operations only set fields. -/
def jsonLogCollector (output_file : Option String) (ts : String) :
    CollectorOps JRecord LogOut where
  record_conversion_start := fun _ => (freshRecord ts, [])
  record_conversion_success := fun d m r =>
    let r2 := dictUpdate r (("event", .s "conversion_success") ::
      ("duration_seconds", .n d) :: metaRecord m)
    (r2, [⟨destOf output_file, r2⟩])
  record_conversion_failure := fun e r =>
    let r2 := dictUpdate r [("event", .s "conversion_failure"), ("error", .s e)]
    (r2, [⟨destOf output_file, r2⟩])
  record_read_time := fun d r => (dictInsert r "read_duration_seconds" (.n d), [])
  record_write_time := fun d r => (dictInsert r "write_duration_seconds" (.n d), [])
  record_feature_count := fun n r => (dictInsert r "feature_count" (.n (n : ℚ)), [])
  record_file_sizes := fun i o r =>
    (dictInsert (dictInsert r "input_size_mb" (.n i)) "output_size_mb" (.n o), [])

/-- `NullCollector` (lines 151-158): every operation is a no-op. -/
def nullCollector : CollectorOps Unit Empty where
  record_conversion_start := fun s => (s, [])
  record_conversion_success := fun _ _ s => (s, [])
  record_conversion_failure := fun _ s => (s, [])
  record_read_time := fun _ s => (s, [])
  record_write_time := fun _ s => (s, [])
  record_feature_count := fun _ s => (s, [])
  record_file_sizes := fun _ _ s => (s, [])

/-- A command sent to the StatsD client. -/
inductive StatsDCmd where
  | incr : String → StatsDCmd
  | timing : String → ℚ → StatsDCmd
  | gauge : String → ℚ → StatsDCmd
deriving DecidableEq, Repr

/-- `StatsDCollector` (lines 161-192): `start` is a no-op; `success`/`failure`
increment counters; `success`, `read_time` and `write_time` send timing
samples of `duration * 1000` milliseconds; `feature_count` and `file_sizes`
push gauges. -/
def statsDCollector : CollectorOps Unit StatsDCmd where
  record_conversion_start := fun s => (s, [])
  record_conversion_success := fun d _ s =>
    (s, [.incr "conversion.success", .timing "conversion.duration" (d * 1000)])
  record_conversion_failure := fun _ s => (s, [.incr "conversion.failure"])
  record_read_time := fun d s => (s, [.timing "read.duration" (d * 1000)])
  record_write_time := fun d s => (s, [.timing "write.duration" (d * 1000)])
  record_feature_count := fun n s => (s, [.gauge "feature.count" (n : ℚ)])
  record_file_sizes := fun i o s =>
    (s, [.gauge "input.size_mb" i, .gauge "output.size_mb" o])

/-! ## Running the pipeline together with a concrete collector -/

/-- A collector packaged with its state and output types and its initial
state, so that `convert_shapefile`'s optional `metrics` argument can be
modelled directly. -/
structure PackedCollector : Type 1 where
  σ : Type
  ω : Type
  impl : CollectorOps σ ω
  init : σ

/-- An explicitly constructed `NullCollector()`. -/
def nullPacked : PackedCollector := ⟨Unit, Empty, nullCollector, ()⟩

/-- Full observable outcome of one `convert_shapefile` call with a concrete
collector attached: final collector state, collector outputs, file-system
trace and result. -/
structure RunOutcome : Type 1 where
  σ : Type
  ω : Type
  finalState : σ
  outputs : List ω
  fs : List FsOp
  result : Except String Bool

/-- `convert_shapefile(input_path, output_path, metrics)` with the default
`metrics=None` handling of lines 203-204: when no collector is passed, a
`NullCollector()` is substituted; the collector then consumes each
invocation of the pipeline in order. -/
def convert_with (env : Env) (input_path : String) (output_path : Option String)
    (metrics : Option PackedCollector) : RunOutcome :=
  let m := metrics.getD nullPacked
  let r := convert_shapefile env input_path output_path
  let p := runEvents m.impl m.init r.events
  ⟨m.σ, m.ω, p.1, p.2, r.fs, r.result⟩

/-! ## Case analysis of one pipeline run -/

/-- Exhaustive enumeration of the five outcomes of `convert_shapefile`:
failure while statting the input, while reading, while writing, while
statting the output, or full success. -/
theorem convert_cases (env : Env) (ip : String) (op : Option String) :
    (∃ e, env.getSize ip = .error e ∧
      convert_shapefile env ip op =
        ⟨[.startEv, .failureEv e], [.statF ip], .error e⟩) ∨
    (∃ b e, env.getSize ip = .ok b ∧ env.readFile ip = .error e ∧
      convert_shapefile env ip op =
        ⟨[.startEv, .failureEv e], [.statF ip, .readF ip], .error e⟩) ∨
    (∃ b t e, env.getSize ip = .ok b ∧ env.readFile ip = .ok t ∧
      env.writeFile t (resolveOutput ip op) = .error e ∧
      convert_shapefile env ip op =
        ⟨[.startEv, .readTimeEv env.readDur, .featureCountEv t.numRows, .failureEv e],
         [.statF ip, .readF ip, .writeF (resolveOutput ip op)], .error e⟩) ∨
    (∃ b t e, env.getSize ip = .ok b ∧ env.readFile ip = .ok t ∧
      env.writeFile t (resolveOutput ip op) = .ok () ∧
      env.getSize (resolveOutput ip op) = .error e ∧
      convert_shapefile env ip op =
        ⟨[.startEv, .readTimeEv env.readDur, .featureCountEv t.numRows,
          .writeTimeEv env.writeDur, .failureEv e],
         [.statF ip, .readF ip, .writeF (resolveOutput ip op), .statF (resolveOutput ip op)],
         .error e⟩) ∨
    (∃ b t ob, env.getSize ip = .ok b ∧ env.readFile ip = .ok t ∧
      env.writeFile t (resolveOutput ip op) = .ok () ∧
      env.getSize (resolveOutput ip op) = .ok ob ∧
      convert_shapefile env ip op =
        ⟨[.startEv, .readTimeEv env.readDur, .featureCountEv t.numRows,
          .writeTimeEv env.writeDur, .fileSizesEv (b / 1024 / 1024) (ob / 1024 / 1024),
          .successEv env.totalDur
            ⟨ip, resolveOutput ip op, t.numRows, b / 1024 / 1024, ob / 1024 / 1024, t.crs⟩],
         [.statF ip, .readF ip, .writeF (resolveOutput ip op), .statF (resolveOutput ip op)],
         .ok true⟩) := by
  rcases h1 : env.getSize ip with e | b
  · exact Or.inl ⟨e, rfl, by simp [convert_shapefile, h1]⟩
  rcases h2 : env.readFile ip with e | t
  · exact Or.inr (Or.inl ⟨b, e, rfl, rfl, by simp [convert_shapefile, h1, h2]⟩)
  rcases h3 : env.writeFile t (resolveOutput ip op) with e | u
  · exact Or.inr (Or.inr (Or.inl ⟨b, t, e, rfl, rfl, h3,
      by simp [convert_shapefile, h1, h2, h3]⟩))
  rcases h4 : env.getSize (resolveOutput ip op) with e | ob
  · exact Or.inr (Or.inr (Or.inr (Or.inl ⟨b, t, e, rfl, rfl, h3,
      rfl, by simp [convert_shapefile, h1, h2, h3, h4]⟩)))
  · exact Or.inr (Or.inr (Or.inr (Or.inr ⟨b, t, ob, rfl, rfl, h3,
      rfl, by simp [convert_shapefile, h1, h2, h3, h4]⟩)))

/-! ## Demo data for concrete evaluations -/

/-- A small table used to evaluate the pipeline on concrete inputs. -/
def demoTable : Table := ⟨3, "EPSG:4326"⟩

/-- A demo environment in which every external step succeeds. -/
def demoEnv : Env where
  getSize := fun _ => .ok 1048576
  readFile := fun _ => .ok demoTable
  writeFile := fun _ _ => .ok ()
  readDur := 1
  writeDur := 2
  totalDur := 5

/-- A demo environment in which the read step raises. -/
def demoFailEnv : Env where
  getSize := fun _ => .ok 1048576
  readFile := fun _ => .error "read failed"
  writeFile := fun _ _ => .ok ()
  readDur := 1
  writeDur := 2
  totalDur := 5

/-- The spec's wording of the default output path: the input path with its
file extension stripped, then `.geojson` appended. -/
def replaceExtension (p : String) : String :=
  ⟨p.data.take (p.data.length - (extOf p.data).length) ++ (".geojson").data⟩

/-- `with_suffix '.geojson'` computes exactly the spec's
extension-replacement. -/
theorem with_suffix_geojson (p : String) :
    with_suffix p ".geojson" = replaceExtension p := by
  unfold with_suffix withSuffixL replaceExtension
  by_cases h : extOf p.data = []
  · rw [h]
    simp
    rw [show p.length = p.data.length from rfl, List.take_length]
  · simp [h]

/-! ## Claims about the pipeline -/

/-- C1: for every invocation of `convert_shapefile`, a normal return means
exactly one `success` call and zero `failure` calls on the collector, and a
propagated error means exactly one `failure` call and zero `success`
calls. -/
theorem convert_shapefile_success_failure_exclusive
    (env : Env) (ip : String) (op : Option String) :
    (∀ b, (convert_shapefile env ip op).result = .ok b →
      countSuccess (convert_shapefile env ip op).events = 1 ∧
      countFailure (convert_shapefile env ip op).events = 0) ∧
    (∀ e, (convert_shapefile env ip op).result = .error e →
      countFailure (convert_shapefile env ip op).events = 1 ∧
      countSuccess (convert_shapefile env ip op).events = 0) := by
  rcases convert_cases env ip op with ⟨e, _, hc⟩ | ⟨b, e, _, _, hc⟩ |
    ⟨b, t, e, _, _, _, hc⟩ | ⟨b, t, e, _, _, _, _, hc⟩ | ⟨b, t, ob, _, _, _, _, hc⟩ <;>
    rw [hc] <;>
    exact ⟨fun x hx => by simp_all [countSuccess, countFailure, List.countP_cons],
           fun x hx => by simp_all [countSuccess, countFailure, List.countP_cons]⟩

/-- Witness for C1: on a concrete all-successful run, one `success` and no
`failure`. -/
theorem convert_shapefile_success_failure_exclusive_witness :
    countSuccess (convert_shapefile demoEnv "map.shp" none).events = 1 ∧
    countFailure (convert_shapefile demoEnv "map.shp" none).events = 0 :=
  (convert_shapefile_success_failure_exclusive demoEnv "map.shp" none).1 true rfl

/-- C2: every failing run emits exactly one `failure` event, that event
carries the propagated error message and is the last collector call, and
every run that emits a `failure` event ends in a propagated error (never a
normal return). -/
theorem convert_shapefile_failure_propagation
    (env : Env) (ip : String) (op : Option String) :
    (∀ e, (convert_shapefile env ip op).result = .error e →
      countFailure (convert_shapefile env ip op).events = 1 ∧
      (convert_shapefile env ip op).events.getLast? = some (.failureEv e)) ∧
    (countFailure (convert_shapefile env ip op).events ≠ 0 →
      ∃ e, (convert_shapefile env ip op).result = .error e ∧
        (convert_shapefile env ip op).events.getLast? = some (.failureEv e)) := by
  rcases convert_cases env ip op with ⟨e, _, hc⟩ | ⟨b, e, _, _, hc⟩ |
    ⟨b, t, e, _, _, _, hc⟩ | ⟨b, t, e, _, _, _, _, hc⟩ | ⟨b, t, ob, _, _, _, _, hc⟩ <;>
    rw [hc] <;>
    refine ⟨fun x hx => ?_, fun hne => ?_⟩ <;>
    simp_all [countFailure, List.countP_cons]

/-- Witness for C2: a concrete failing run propagates `read failed` after
one `failure` event. -/
theorem convert_shapefile_failure_propagation_witness :
    countFailure (convert_shapefile demoFailEnv "map.shp" none).events = 1 ∧
    (convert_shapefile demoFailEnv "map.shp" none).events.getLast? =
      some (.failureEv "read failed") :=
  (convert_shapefile_failure_propagation demoFailEnv "map.shp" none).1 "read failed" rfl

/-- C3: every successful run makes exactly the collector calls
`start`, `read_time`, `feature_count` (= row count of the table the read
step returned), `write_time`, `file_sizes`, `success`, in that order, each
once. -/
theorem convert_shapefile_success_event_order
    (env : Env) (ip : String) (op : Option String) (b : Bool)
    (h : (convert_shapefile env ip op).result = .ok b) :
    ∃ t ib ob, env.readFile ip = .ok t ∧ env.getSize ip = .ok ib ∧
      env.getSize (resolveOutput ip op) = .ok ob ∧
      (convert_shapefile env ip op).events =
        [.startEv, .readTimeEv env.readDur, .featureCountEv t.numRows,
         .writeTimeEv env.writeDur, .fileSizesEv (ib / 1024 / 1024) (ob / 1024 / 1024),
         .successEv env.totalDur
           ⟨ip, resolveOutput ip op, t.numRows, ib / 1024 / 1024, ob / 1024 / 1024, t.crs⟩] := by
  rcases convert_cases env ip op with ⟨e, _, hc⟩ | ⟨b', e, _, _, hc⟩ |
    ⟨b', t, e, _, _, _, hc⟩ | ⟨b', t, e, _, _, _, _, hc⟩ |
    ⟨b', t, ob, h1, h2, h3, h4, hc⟩ <;> rw [hc] at h ⊢ <;> simp_all

/-- Witness for C3: the event order on a concrete successful run. -/
theorem convert_shapefile_success_event_order_witness :
    ∃ t ib ob, demoEnv.readFile "map.shp" = .ok t ∧ demoEnv.getSize "map.shp" = .ok ib ∧
      demoEnv.getSize (resolveOutput "map.shp" none) = .ok ob ∧
      (convert_shapefile demoEnv "map.shp" none).events =
        [.startEv, .readTimeEv demoEnv.readDur, .featureCountEv t.numRows,
         .writeTimeEv demoEnv.writeDur, .fileSizesEv (ib / 1024 / 1024) (ob / 1024 / 1024),
         .successEv demoEnv.totalDur
           ⟨"map.shp", resolveOutput "map.shp" none, t.numRows,
            ib / 1024 / 1024, ob / 1024 / 1024, t.crs⟩] :=
  convert_shapefile_success_event_order demoEnv "map.shp" none true rfl

/-- C4: the output path written to (and reported in the success metadata) is
the given output path verbatim when one is passed, else the input path with
its file extension replaced by `.geojson`. -/
theorem convert_shapefile_output_path_resolution
    (env : Env) (ip : String) (op : Option String) :
    (∀ p, FsOp.writeF p ∈ (convert_shapefile env ip op).fs → p = resolveOutput ip op) ∧
    (∀ d m, Event.successEv d m ∈ (convert_shapefile env ip op).events →
      m.output_file = resolveOutput ip op) ∧
    (op = none → resolveOutput ip op = replaceExtension ip) ∧
    (∀ p, op = some p → resolveOutput ip op = p) := by
  refine ⟨?_, ?_, ?_, ?_⟩
  · rcases convert_cases env ip op with ⟨e, _, hc⟩ | ⟨b, e, _, _, hc⟩ |
      ⟨b, t, e, _, _, _, hc⟩ | ⟨b, t, e, _, _, _, _, hc⟩ | ⟨b, t, ob, _, _, _, _, hc⟩ <;>
      rw [hc] <;> intro p hp <;> simp_all
  · rcases convert_cases env ip op with ⟨e, _, hc⟩ | ⟨b, e, _, _, hc⟩ |
      ⟨b, t, e, _, _, _, hc⟩ | ⟨b, t, e, _, _, _, _, hc⟩ | ⟨b, t, ob, _, _, _, _, hc⟩ <;>
      rw [hc] <;> intro d m hm <;> simp_all
  · intro h
    subst h
    exact with_suffix_geojson ip
  · intro p h
    subst h
    rfl

/-- Witness for C4: on `dir/map.shp` with no output argument the resolved
path is `dir/map.geojson`, the spec derivation. -/
theorem convert_shapefile_output_path_resolution_witness :
    resolveOutput "dir/map.shp" none = "dir/map.geojson" ∧
    resolveOutput "dir/map.shp" none = replaceExtension "dir/map.shp" :=
  ⟨rfl, (convert_shapefile_output_path_resolution demoEnv "dir/map.shp" none).2.2.1 rfl⟩

/-- C10: whenever `convert_shapefile` returns normally, its return value is
`True`; failure is signalled only by a propagated exception. -/
theorem convert_shapefile_returns_true
    (env : Env) (ip : String) (op : Option String) (b : Bool)
    (h : (convert_shapefile env ip op).result = .ok b) : b = true := by
  rcases convert_cases env ip op with ⟨e, _, hc⟩ | ⟨b', e, _, _, hc⟩ |
    ⟨b', t, e, _, _, _, hc⟩ | ⟨b', t, e, _, _, _, _, hc⟩ | ⟨b', t, ob, _, _, _, _, hc⟩ <;>
    rw [hc] at h <;> simp_all

/-- Witness for C10: a concrete run returns normally, with value `true`. -/
theorem convert_shapefile_returns_true_witness :
    (convert_shapefile demoEnv "map.shp" none).result = .ok true ∧ true = true :=
  ⟨rfl, convert_shapefile_returns_true demoEnv "map.shp" none true rfl⟩

/-! ## Claims about the collectors -/

/-- The `NullCollector` output type is uninhabited, so its output list is
always empty. -/
theorem empty_outputs : ∀ (l : List Empty), l = []
  | [] => rfl
  | h :: _ => h.elim

/-- C9: calling `convert_shapefile` with no collector is the very same run
as calling it with an explicitly constructed `NullCollector`: same result,
same file-system effects, no metric output, and every `NullCollector`
operation is a no-op. -/
theorem convert_with_none_eq_nullCollector
    (env : Env) (ip : String) (op : Option String) :
    convert_with env ip op none = convert_with env ip op (some nullPacked) ∧
    (convert_with env ip op none).outputs = [] ∧
    (convert_with env ip op none).result = (convert_shapefile env ip op).result ∧
    (convert_with env ip op none).fs = (convert_shapefile env ip op).fs ∧
    (∀ (s : Unit) (ev : Event), runOp nullCollector s ev = (s, [])) := by
  refine ⟨rfl, empty_outputs _, rfl, rfl, fun s ev => ?_⟩
  cases ev <;> rfl

/-- C8: the StatsD collector's operation semantics: `start` is a no-op,
`success`/`failure` increment their counters, `success`/`read_time`/`write_time`
send timings of `duration * 1000` milliseconds, `feature_count` and the file
sizes are pushed as gauges. -/
theorem statsD_operation_semantics :
    (∀ s, statsDCollector.record_conversion_start s = (s, [])) ∧
    (∀ d m s, statsDCollector.record_conversion_success d m s =
      (s, [.incr "conversion.success", .timing "conversion.duration" (d * 1000)])) ∧
    (∀ e s, statsDCollector.record_conversion_failure e s =
      (s, [.incr "conversion.failure"])) ∧
    (∀ d s, statsDCollector.record_read_time d s =
      (s, [.timing "read.duration" (d * 1000)])) ∧
    (∀ d s, statsDCollector.record_write_time d s =
      (s, [.timing "write.duration" (d * 1000)])) ∧
    (∀ n s, statsDCollector.record_feature_count n s =
      (s, [.gauge "feature.count" (n : ℚ)])) ∧
    (∀ i o s, statsDCollector.record_file_sizes i o s =
      (s, [.gauge "input.size_mb" i, .gauge "output.size_mb" o])) :=
  ⟨fun _ => rfl, fun _ _ _ => rfl, fun _ _ => rfl, fun _ _ => rfl, fun _ _ => rfl,
   fun _ _ => rfl, fun _ _ _ => rfl⟩

/-- C5: with the JsonLog collector the intermediate operations
(`read_time`, `write_time`, `feature_count`, `file_sizes`) emit no output,
and every pipeline run — successful or failing — emits exactly one record,
routed to the configured destination file, or to stdout when none is
configured. -/
theorem jsonLog_single_emission_per_conversion
    (of : Option String) (ts : String) (r0 : JRecord)
    (env : Env) (ip : String) (op : Option String) :
    (∀ d r, ((jsonLogCollector of ts).record_read_time d r).2 = []) ∧
    (∀ d r, ((jsonLogCollector of ts).record_write_time d r).2 = []) ∧
    (∀ n r, ((jsonLogCollector of ts).record_feature_count n r).2 = []) ∧
    (∀ i o r, ((jsonLogCollector of ts).record_file_sizes i o r).2 = []) ∧
    (∃ r, (runEvents (jsonLogCollector of ts) r0 (convert_shapefile env ip op).events).2 =
      [⟨destOf of, r⟩]) := by
  refine ⟨fun _ _ => rfl, fun _ _ => rfl, fun _ _ => rfl, fun _ _ _ => rfl, ?_⟩
  rcases convert_cases env ip op with ⟨e, _, hc⟩ | ⟨b, e, _, _, hc⟩ |
    ⟨b, t, e, _, _, _, hc⟩ | ⟨b, t, e, _, _, _, _, hc⟩ | ⟨b, t, ob, _, _, _, _, hc⟩ <;>
    rw [hc] <;> exact ⟨_, rfl⟩

/-- C6: on any `JsonLogCollector` instance (initial record empty) and after
any prior operation sequence, `start` replaces the in-flight record with a
fresh one whose only fields are the captured timestamp and the start event
tag. -/
theorem jsonLog_start_resets_record
    (of : Option String) (ts : String) (prior : List Event) :
    ((jsonLogCollector of ts).record_conversion_start
        (runEvents (jsonLogCollector of ts) [] prior).1).1 = freshRecord ts ∧
    (freshRecord ts).map Prod.fst = ["timestamp", "event"] :=
  ⟨rfl, rfl⟩

/-! ## Well-formedness of emitted JsonLog records (for C7) -/

/-- A key present in a record survives a dict item assignment. -/
theorem mem_keys_dictInsert (d : JRecord) (k k0 : String) (v : JsonVal)
    (h : k0 ∈ d.map Prod.fst) : k0 ∈ (dictInsert d k v).map Prod.fst := by
  unfold dictInsert
  split
  · have hkeys : (d.map fun p => if p.1 = k then (k, v) else p).map Prod.fst =
        d.map Prod.fst := by
      rw [List.map_map]
      refine List.map_congr_left fun p _ => ?_
      by_cases hp : p.1 = k
      · simp [hp]
      · simp [hp]
    rw [hkeys]
    exact h
  · rw [List.map_append]
    exact List.mem_append_left _ h

/-- A key present in a record survives a dict update. -/
theorem mem_keys_dictUpdate (kvs : List (String × JsonVal)) (d : JRecord) (k0 : String)
    (h : k0 ∈ d.map Prod.fst) : k0 ∈ (dictUpdate d kvs).map Prod.fst := by
  induction kvs generalizing d with
  | nil => exact h
  | cons p rest ih => exact ih _ (mem_keys_dictInsert d p.1 k0 p.2 h)

attribute [irreducible] dictInsert

/-- A record carrying both mandatory fields of the structured-log format. -/
def hasTags (r : JRecord) : Prop :=
  "timestamp" ∈ r.map Prod.fst ∧ "event" ∈ r.map Prod.fst

/-- The fresh record installed by `start` carries both mandatory fields. -/
theorem hasTags_freshRecord (ts : String) : hasTags (freshRecord ts) := by
  constructor <;> simp [freshRecord]

/-- One collector operation keeps the mandatory fields in the in-flight
record and only emits records that carry them. -/
theorem jsonLog_step_invariant (of : Option String) (ts : String) (ev : Event)
    (r : JRecord) (h : hasTags r) :
    hasTags (runOp (jsonLogCollector of ts) r ev).1 ∧
    ∀ o ∈ (runOp (jsonLogCollector of ts) r ev).2, hasTags o.record := by
  cases ev with
  | startEv =>
      exact ⟨hasTags_freshRecord ts, fun o ho => nomatch ho⟩
  | readTimeEv d =>
      exact ⟨⟨mem_keys_dictInsert r _ _ _ h.1, mem_keys_dictInsert r _ _ _ h.2⟩,
        fun o ho => nomatch ho⟩
  | featureCountEv n =>
      exact ⟨⟨mem_keys_dictInsert r _ _ _ h.1, mem_keys_dictInsert r _ _ _ h.2⟩,
        fun o ho => nomatch ho⟩
  | writeTimeEv d =>
      exact ⟨⟨mem_keys_dictInsert r _ _ _ h.1, mem_keys_dictInsert r _ _ _ h.2⟩,
        fun o ho => nomatch ho⟩
  | fileSizesEv i o =>
      exact ⟨⟨mem_keys_dictInsert _ _ _ _ (mem_keys_dictInsert r _ _ _ h.1),
              mem_keys_dictInsert _ _ _ _ (mem_keys_dictInsert r _ _ _ h.2)⟩,
        fun o ho => nomatch ho⟩
  | successEv d m =>
      have hstate : (runOp (jsonLogCollector of ts) r (.successEv d m)).1 =
          dictUpdate r (("event", .s "conversion_success") ::
            ("duration_seconds", .n d) :: metaRecord m) := rfl
      have houts : (runOp (jsonLogCollector of ts) r (.successEv d m)).2 =
          [⟨destOf of, (runOp (jsonLogCollector of ts) r (.successEv d m)).1⟩] := rfl
      have h2 : hasTags ((runOp (jsonLogCollector of ts) r (.successEv d m)).1) := by
        rw [hstate]
        exact ⟨mem_keys_dictUpdate _ r _ h.1, mem_keys_dictUpdate _ r _ h.2⟩
      refine ⟨h2, fun o ho => ?_⟩
      rw [houts] at ho
      rw [List.mem_singleton.mp ho]
      exact h2
  | failureEv e =>
      have hstate : (runOp (jsonLogCollector of ts) r (.failureEv e)).1 =
          dictUpdate r [("event", .s "conversion_failure"), ("error", .s e)] := rfl
      have houts : (runOp (jsonLogCollector of ts) r (.failureEv e)).2 =
          [⟨destOf of, (runOp (jsonLogCollector of ts) r (.failureEv e)).1⟩] := rfl
      have h2 : hasTags ((runOp (jsonLogCollector of ts) r (.failureEv e)).1) := by
        rw [hstate]
        exact ⟨mem_keys_dictUpdate _ r _ h.1, mem_keys_dictUpdate _ r _ h.2⟩
      refine ⟨h2, fun o ho => ?_⟩
      rw [houts] at ho
      rw [List.mem_singleton.mp ho]
      exact h2

/-- Running the JsonLog collector from a record that carries the mandatory
fields keeps them and only emits records that carry them. -/
theorem jsonLog_run_invariant (of : Option String) (ts : String) (evs : List Event)
    (r : JRecord) (h : hasTags r) :
    hasTags (runEvents (jsonLogCollector of ts) r evs).1 ∧
    ∀ o ∈ (runEvents (jsonLogCollector of ts) r evs).2, hasTags o.record := by
  induction evs generalizing r with
  | nil => exact ⟨h, by simp [runEvents]⟩
  | cons ev rest ih =>
    have hstep := jsonLog_step_invariant of ts ev r h
    have hrest := ih _ hstep.1
    refine ⟨hrest.1, fun o ho => ?_⟩
    rcases List.mem_append.mp ho with h1 | h1
    · exact hstep.2 o h1
    · exact hrest.2 o h1

/-- Digit characters are never a newline. -/
theorem digitChar_ne_newline (d : ℕ) : digitChar d ≠ '\n' := by
  unfold digitChar
  split <;> decide

/-- Decimal renderings contain no newline. -/
theorem natChars_ne_newline (n : ℕ) : ∀ c ∈ natChars n, c ≠ '\n' := by
  induction n using Nat.strong_induction_on with
  | _ n ih =>
    unfold natChars
    split
    · intro c hc
      rw [List.mem_singleton.mp hc]
      exact digitChar_ne_newline n
    next hn =>
      intro c hc
      rcases List.mem_append.mp hc with h1 | h1
      · exact ih (n / 10) (Nat.div_lt_self (by omega) (by omega)) c h1
      · rw [List.mem_singleton.mp h1]
        exact digitChar_ne_newline _

/-- Integer renderings contain no newline. -/
theorem intChars_ne_newline (z : ℤ) : ∀ c ∈ intChars z, c ≠ '\n' := by
  intro c hc
  unfold intChars at hc
  rcases List.mem_append.mp hc with h1 | h1
  · split at h1
    · rw [List.mem_singleton.mp h1]
      decide
    · exact absurd h1 (List.not_mem_nil c)
  · exact natChars_ne_newline _ c h1

/-- Rational renderings contain no newline. -/
theorem qChars_ne_newline (q : ℚ) : ∀ c ∈ qChars q, c ≠ '\n' := by
  intro c hc
  unfold qChars at hc
  rcases List.mem_append.mp hc with h1 | h1
  · exact intChars_ne_newline _ c h1
  · split at h1
    · exact absurd h1 (List.not_mem_nil c)
    · rcases List.mem_cons.mp h1 with h2 | h2
      · rw [h2]; decide
      · exact natChars_ne_newline _ c h2

/-- `json.dumps` escaping never produces a newline character. -/
theorem escChar_ne_newline (c : Char) : ∀ x ∈ escChar c, x ≠ '\n' := by
  intro x hx
  unfold escChar at hx
  split at hx
  · fin_cases hx <;> decide
  · split at hx
    · fin_cases hx <;> decide
    · split at hx
      · fin_cases hx <;> decide
      · split at hx
        · fin_cases hx <;> decide
        · split at hx
          · fin_cases hx <;> decide
          · split at hx
            · fin_cases hx <;> decide
            · split at hx
              · fin_cases hx <;> decide
              · split at hx
                · simp only [List.mem_cons, List.not_mem_nil, or_false] at hx
                  rcases hx with rfl | rfl | rfl | rfl | rfl | rfl
                  · decide
                  · decide
                  · decide
                  · decide
                  · exact digitChar_ne_newline _
                  · exact digitChar_ne_newline _
                next h10 =>
                  rw [List.mem_singleton.mp hx]
                  intro hcn
                  rw [hcn] at h10
                  exact h10 (by decide)

/-- Escaped JSON string literals contain no newline. -/
theorem jsonStrChars_ne_newline (s : String) : ∀ c ∈ jsonStrChars s, c ≠ '\n' := by
  intro c hc
  unfold jsonStrChars at hc
  rcases List.mem_cons.mp hc with h1 | h1
  · rw [h1]; decide
  rcases List.mem_append.mp h1 with h2 | h2
  · rcases List.mem_flatMap.mp h2 with ⟨x, _, hx⟩
    exact escChar_ne_newline x c hx
  · rw [List.mem_singleton.mp h2]; decide

/-- Serialized JSON scalars contain no newline. -/
theorem jsonValChars_ne_newline (v : JsonVal) : ∀ c ∈ jsonValChars v, c ≠ '\n' := by
  cases v with
  | s str => exact jsonStrChars_ne_newline str
  | n q => exact qChars_ne_newline q

/-- Serialized key-value pairs contain no newline. -/
theorem pairChars_ne_newline (p : String × JsonVal) : ∀ c ∈ pairChars p, c ≠ '\n' := by
  intro c hc
  unfold pairChars at hc
  rcases List.mem_append.mp hc with h1 | h1
  · exact jsonStrChars_ne_newline p.1 c h1
  rcases List.mem_cons.mp h1 with h2 | h2
  · rw [h2]; decide
  rcases List.mem_cons.mp h2 with h3 | h3
  · rw [h3]; decide
  · exact jsonValChars_ne_newline p.2 c h3

/-- Comma-joining newline-free chunks stays newline-free. -/
theorem joinPairs_ne_newline (ls : List (List Char))
    (h : ∀ l ∈ ls, ∀ c ∈ l, c ≠ '\n') : ∀ c ∈ joinPairs ls, c ≠ '\n' := by
  induction ls with
  | nil =>
    intro c hc
    exact absurd hc (List.not_mem_nil c)
  | cons x xs ih =>
    cases xs with
    | nil =>
      intro c hc
      exact h x (List.mem_singleton_self x) c hc
    | cons y ys =>
      intro c hc
      unfold joinPairs at hc
      rcases List.mem_append.mp hc with h1 | h1
      · exact h x (List.mem_cons_self x _) c h1
      rcases List.mem_cons.mp h1 with h2 | h2
      · rw [h2]; decide
      rcases List.mem_cons.mp h2 with h3 | h3
      · rw [h3]; decide
      · exact ih (fun l hl => h l (List.mem_cons_of_mem x hl)) c h3

/-- `json.dumps` of any record is a single line: it contains no newline
character. -/
theorem jsonDumps_no_newline (r : JRecord) : '\n' ∉ (jsonDumps r).data := by
  intro hmem
  unfold jsonDumps at hmem
  have hmem' : '\n' ∈ '\x7b' :: (joinPairs (r.map pairChars) ++ ['\x7d']) := hmem
  rcases List.mem_cons.mp hmem' with h1 | h1
  · exact absurd h1 (by decide)
  rcases List.mem_append.mp h1 with h2 | h2
  · refine joinPairs_ne_newline (r.map pairChars) ?_ '\n' h2 rfl
    intro l hl c hc
    rcases List.mem_map.mp hl with ⟨p, _, hp⟩
    rw [← hp] at hc
    exact pairChars_ne_newline p c hc
  · exact absurd (List.mem_singleton.mp h2) (by decide)

/-- C7: every record the JsonLog collector emits (via `success` or
`failure`) during a conversion whose first collector call is `start` — the
only call orders the pipeline produces — carries a timestamp field and an
event tag, and serializes to a single newline-free JSON line. -/
theorem jsonLog_emitted_records_wellformed
    (of : Option String) (ts : String) (rest : List Event) (o : LogOut)
    (ho : o ∈ (runEvents (jsonLogCollector of ts) [] (.startEv :: rest)).2) :
    ("timestamp" ∈ o.record.map Prod.fst ∧ "event" ∈ o.record.map Prod.fst) ∧
    '\n' ∉ (jsonDumps o.record).data := by
  have hred : runEvents (jsonLogCollector of ts) [] (.startEv :: rest) =
      runEvents (jsonLogCollector of ts) (freshRecord ts) rest := rfl
  rw [hred] at ho
  exact ⟨(jsonLog_run_invariant of ts rest (freshRecord ts)
    (hasTags_freshRecord ts)).2 o ho, jsonDumps_no_newline o.record⟩

set_option allowUnsafeReducibility true in
attribute [semireducible] dictInsert

/-- The single record emitted by the concrete witness run for the
structured-log format claim. -/
def demoLogOut : LogOut :=
  ⟨.stdout, [("timestamp", .s "2024-01-01 12:00:00"),
    ("event", .s "conversion_failure"), ("error", .s "boom")]⟩

/-- Witness: a concrete start-then-failure run emits exactly `demoLogOut`,
which carries both mandatory fields and serializes without a newline. -/
theorem jsonLog_emitted_records_wellformed_witness :
    ("timestamp" ∈ demoLogOut.record.map Prod.fst ∧
     "event" ∈ demoLogOut.record.map Prod.fst) ∧
    '\n' ∉ (jsonDumps demoLogOut.record).data :=
  jsonLog_emitted_records_wellformed none "2024-01-01 12:00:00" [.failureEv "boom"]
    demoLogOut (by decide)

end Geofile
